import Mathlib

/-!
Verification of the ananas-api multi-provider translation orchestrator.

The JavaScript sources under `src/` are shallowly embedded as executable Lean
definitions.  JavaScript objects whose bindings are built by repeated
assignment (`obj[k] = v`) are represented as association lists in insertion
order, with a last-binding-wins lookup (`jsGet`); JavaScript truthiness on
strings (empty string is falsy) is `truthyOpt`; a thrown exception is the
`JsResult.jsError` constructor.  The registry JSON datasets
(`wikidata-languages.json`, `deepl-targets.json`, `m2m-support.json`,
`google-translate-support.json`) are not part of the snapshot, so every
definition that reads them is parameterised by the dataset, and small concrete
instances modelled from the spec are used for witnesses and counterexamples.
-/

namespace Ananas

/-- Lookup in a JavaScript-object-like association list: the value of the
last binding for the key wins, mirroring repeated `obj[k] = v` assignments. -/
def jsGet (m : List (String × String)) (k : String) : Option String :=
  match m with
  | [] => none
  | (a, b) :: t =>
    match jsGet t k with
    | some v => some v
    | none => if a == k then some b else none

/-- JavaScript truthiness for an optional string: `undefined`, `null` and the
empty string are all falsy. -/
def truthyOpt (o : Option String) : Option String :=
  o.bind (fun s => if s.isEmpty then none else none.getD (some s))

/-- Character-level test whether `pat` occurs at the start of `s`. -/
def startsWithChars : List Char → List Char → Bool
  | [], _ => true
  | _ :: _, [] => false
  | p :: ps, c :: cs => p == c && startsWithChars ps cs

/-- Character-level contiguous-substring search. -/
def hasSubChars (pat : List Char) : List Char → Bool
  | [] => startsWithChars pat []
  | c :: t => startsWithChars pat (c :: t) || hasSubChars pat t

/-- Substring test embedding JavaScript `String.prototype.includes`. -/
def strContains (s pat : String) : Bool :=
  hasSubChars pat.data s.data

/-- Embedding of `toUpperCase()`, computed character by character. -/
def jsToUpper (s : String) : String := String.mk (s.data.map Char.toUpper)

/-- Embedding of `toLowerCase()`, computed character by character. -/
def jsToLower (s : String) : String := String.mk (s.data.map Char.toLower)

/-- Character-level splitting used to embed `split(sep)` with a
one-character separator; an empty string yields one empty segment, exactly
as in JavaScript. -/
def splitChars (sep : Char) : List Char → List (List Char)
  | [] => [[]]
  | c :: t =>
    if c == sep then [] :: splitChars sep t
    else
      match splitChars sep t with
      | [] => [[c]]
      | h :: r => (c :: h) :: r

/-- Embedding of JavaScript `split(sep)` for a one-character separator. -/
def jsSplit (sep : Char) (s : String) : List String :=
  (splitChars sep s.data).map String.mk

/-- Whitespace test for the embedding of `trim()`. -/
def isWsChar (c : Char) : Bool :=
  c == ' ' || c == '\t' || c == '\n' || c == '\r'

/-- Embedding of JavaScript `trim()`. -/
def jsTrim (s : String) : String :=
  String.mk (((s.data.dropWhile isWsChar).reverse.dropWhile isWsChar).reverse)

/-- First segment of `split(sep)`, embedding the `split('-')[0]` idiom. -/
def headSegment (sep : Char) (s : String) : String :=
  String.mk (s.data.takeWhile (fun c => c != sep))

/-- Embedding of JavaScript `Array.prototype.join(sep)`. -/
def jsJoin (sep : String) : List String → String
  | [] => ""
  | [x] => x
  | x :: y :: r => x ++ sep ++ jsJoin sep (y :: r)

/-- Result of running a piece of JavaScript: a value, or a thrown exception. -/
inductive JsResult (α : Type) where
  | ok (a : α)
  | jsError (msg : String)
deriving DecidableEq, Repr

/-- Outcome of awaiting an asynchronous call: it settles with a value or it
throws. -/
inductive CallOutcome (α : Type) where
  | threw (msg : String)
  | ok (a : α)

/-! ## Language Registry and Code Normalizer (src/lang_utils.js lines 1-25) -/

/-- Entry of `wikidata-languages.json`: a canonical 3-letter identifier and an
optional 2-letter short identifier (both fields may be missing in the data). -/
structure LangEntry where
  iso : Option String
  iso1 : Option String
deriving DecidableEq, Repr

/-- Bindings inserted by the `reduce` in lang_utils.js lines 5-10: one pair
per entry whose `iso` and `iso1` fields are both truthy, in dataset order. -/
def wdPairs (wd : List LangEntry) : List (String × String) :=
  wd.filterMap (fun e =>
    match e.iso, e.iso1 with
    | some a, some b => if !a.isEmpty && !b.isEmpty then some (a, b) else none
    | _, _ => none)

/-- ISO3_TO_ISO2_MAP of lang_utils.js: `acc[lang.iso] = lang.iso1`, later
entries shadowing earlier ones under `jsGet`. -/
def iso3to2Map (wd : List LangEntry) : List (String × String) :=
  wdPairs wd

/-- ISO2_TO_ISO3_MAP of lang_utils.js: `acc[lang.iso1.toUpperCase()] = lang.iso`. -/
def iso2to3Map (wd : List LangEntry) : List (String × String) :=
  (wdPairs wd).map (fun p => (jsToUpper p.2, p.1))

/-- getISO2ForModel of lang_utils.js: `ISO3_TO_ISO2_MAP[iso3] || null`. -/
def getISO2ForModel (wd : List LangEntry) (iso3 : String) : Option String :=
  truthyOpt (jsGet (iso3to2Map wd) iso3)

/-- getISO3FromISO2 of lang_utils.js: `ISO2_TO_ISO3_MAP[iso2.toUpperCase()] || null`. -/
def getISO3FromISO2 (wd : List LangEntry) (iso2 : String) : Option String :=
  truthyOpt (jsGet (iso2to3Map wd) (jsToUpper iso2))

/-! ## Google code maps (src/google_translator.js lines 5-20) -/

/-- googleReverseMap of google_translator.js: `googleReverseMap[value] = key`
for each entry of google-translate-support.json, in object order. -/
def googleReverseMap (gs : List (String × String)) : List (String × String) :=
  gs.map (fun p => (p.2, p.1))

/-- getGoogleTranslateCode of google_translator.js:
`googleTranslateSupport[iso3Code] || null`. -/
def getGoogleTranslateCode (gs : List (String × String)) (iso3Code : String) : Option String :=
  truthyOpt (jsGet gs iso3Code)

/-- getISO3FromISO2 of google_translator.js (a distinct, find-first variant):
`wikidataLanguages.find(lang => lang.iso1?.toLowerCase() === iso2.toLowerCase())?.iso || null`. -/
def googleGetISO3FromISO2 (wd : List LangEntry) (iso2 : String) : Option String :=
  truthyOpt ((wd.find? (fun e =>
    match e.iso1 with
    | some s => jsToLower s == jsToLower iso2
    | none => false)).bind (fun e => e.iso))

/-! ## Association-list lookup lemmas -/

theorem jsGet_mem {m : List (String × String)} {k v : String}
    (h : jsGet m k = some v) : (k, v) ∈ m := by
  induction m with
  | nil => simp [jsGet] at h
  | cons p t ih =>
    obtain ⟨a, b⟩ := p
    simp only [jsGet] at h
    cases ht : jsGet t k with
    | some w =>
      rw [ht] at h
      exact List.mem_cons_of_mem _ (ih (ht.trans h))
    | none =>
      rw [ht] at h
      by_cases hak : a == k
      · simp [hak] at h
        have : a = k := by simpa using hak
        subst this h
        exact List.mem_cons_self _ _
      · simp [hak] at h

theorem jsGet_eq_none_of_not_mem_keys {m : List (String × String)} {k : String}
    (h : k ∉ m.map Prod.fst) : jsGet m k = none := by
  induction m with
  | nil => rfl
  | cons p t ih =>
    obtain ⟨a, b⟩ := p
    simp only [List.map_cons, List.mem_cons] at h
    push_neg at h
    simp only [jsGet, ih h.2]
    have : (a == k) = false := by
      simp only [beq_eq_false_iff_ne, ne_eq]
      exact fun hak => h.1 hak.symm
    simp [this]

theorem jsGet_of_mem_nodup {m : List (String × String)} {k v : String}
    (hnd : (m.map Prod.fst).Nodup) (hm : (k, v) ∈ m) : jsGet m k = some v := by
  induction m with
  | nil => simp at hm
  | cons p t ih =>
    obtain ⟨a, b⟩ := p
    simp only [List.map_cons, List.nodup_cons] at hnd
    rcases List.mem_cons.mp hm with heq | hmt
    · have h1 : k = a := congrArg Prod.fst heq
      have h2 : v = b := congrArg Prod.snd heq
      subst h1; subst h2
      have hkt : k ∉ t.map Prod.fst := hnd.1
      simp [jsGet, jsGet_eq_none_of_not_mem_keys hkt]
    · have : jsGet t k = some v := ih hnd.2 hmt
      simp [jsGet, this]

theorem wdPairs_truthy {wd : List LangEntry} {p : String × String}
    (h : p ∈ wdPairs wd) : p.1.isEmpty = false ∧ p.2.isEmpty = false := by
  simp only [wdPairs, List.mem_filterMap] at h
  obtain ⟨e, _, he⟩ := h
  cases hiso : e.iso with
  | none => simp [hiso] at he
  | some a =>
    cases hiso1 : e.iso1 with
    | none => simp [hiso, hiso1] at he
    | some b =>
      simp only [hiso, hiso1] at he
      cases hc : (!a.isEmpty && !b.isEmpty) with
      | false => simp [hc] at he
      | true =>
        simp only [hc, if_true] at he
        cases he
        simpa using hc

theorem truthyOpt_eq_some {o : Option String} {v : String}
    (h : truthyOpt o = some v) : o = some v ∧ v.isEmpty = false := by
  cases o with
  | none => simp [truthyOpt] at h
  | some s =>
    by_cases hs : s.isEmpty
    · simp [truthyOpt, hs, Option.bind] at h
    · simp only [truthyOpt, Option.bind, hs] at h
      simp at h
      subst h
      exact ⟨rfl, by simpa using hs⟩

theorem truthyOpt_some_of {s : String} (h : s.isEmpty = false) :
    truthyOpt (some s) = some s := by
  simp [truthyOpt, Option.bind, h]

/-! ## Capability Sets and Assignment Engine (src/lang_utils.js lines 27-64) -/

/-- Raw per-provider capability data, parameterising the module-level dataset
imports of lang_utils.js.  `deeplTargets` holds the `language` field of each
deepl-targets.json entry, `m2mKeys` the keys of m2m-support.json,
`googleSupport` the entries of google-translate-support.json (unused by the
Assignment Engine, which knows no google provider). -/
structure RegistryData where
  wd : List LangEntry
  deeplTargets : List String
  m2mKeys : List String
  googleSupport : List (String × String)

/-- deeplSupported of lang_utils.js:
`deeplTargets.map(l => l.language.split('-')[0].toLowerCase()).filter(Boolean)`. -/
def deeplSupported (D : RegistryData) : List String :=
  (D.deeplTargets.map (fun s => jsToLower (headSegment '-' s))).filter
    (fun s => !s.isEmpty)

/-- m2mSupported of lang_utils.js: `Object.keys(m2mSupport)`. -/
def m2mSupported (D : RegistryData) : List String :=
  D.m2mKeys

/-- openaiSupported of lang_utils.js:
`wikidataLanguages.map(l => l.iso).filter(Boolean)`. -/
def openaiSupported (D : RegistryData) : List String :=
  (D.wd.filterMap (fun e => e.iso)).filter (fun s => !s.isEmpty)

/-- Predicate of the `translator_order.find` callback in lang_utils.js
lines 52-56, for one candidate translator name `tr` and one requested code. -/
def trSupports (D : RegistryData) (tr code : String) : Bool :=
  let iso2 := jsGet (iso3to2Map D.wd) code
  (tr == "deepl" && (match iso2 with
    | some s => !s.isEmpty && (deeplSupported D).contains (jsToLower s)
    | none => false)) ||
  (tr == "m2m" && (match iso2 with
    | some s => !s.isEmpty && (m2mSupported D).contains s
    | none => false)) ||
  (tr == "openai" && (openaiSupported D).contains code)

/-- Result of `translator_order.find(...)` for one requested code. -/
def assignedTo (D : RegistryData) (order : List String) (code : String) : Option String :=
  order.find? (fun tr => trSupports D tr code)

/-- Result object of assignTranslators:
`{ deepl: [], m2m: [], openai: [], unsupported: [] }` — note the absence of a
`google` bucket. -/
structure Assignment where
  deepl : List String
  m2m : List String
  openai : List String
  unsupported : List String
deriving DecidableEq, Repr

/-- JavaScript property access on the assignment object: any key other than
the four declared buckets yields `undefined`. -/
def Assignment.get? (a : Assignment) (k : String) : Option (List String) :=
  if k == "deepl" then some a.deepl
  else if k == "m2m" then some a.m2m
  else if k == "openai" then some a.openai
  else if k == "unsupported" then some a.unsupported
  else none

/-- Loop body of the `for (const code of tgt_langs)` loop in lang_utils.js
lines 50-62.  The final `else acc` arm is unreachable: the `find?` predicate
only ever matches the strings deepl, m2m, openai. -/
def assignStep (D : RegistryData) (order : List String) (a : Assignment)
    (code : String) : Assignment :=
  match assignedTo D order code with
  | some tr =>
    if tr == "deepl" then { a with deepl := a.deepl ++ [code] }
    else if tr == "m2m" then { a with m2m := a.m2m ++ [code] }
    else if tr == "openai" then { a with openai := a.openai ++ [code] }
    else a
  | none => { a with unsupported := a.unsupported ++ [code] }

/-- assignTranslators of lang_utils.js lines 38-64, including the replacement
of an empty target list by every registry canonical identifier. -/
def assignTranslators (D : RegistryData) (tgt_langs : List String)
    (order : List String := ["deepl", "m2m", "openai"]) : Assignment :=
  let langs := if tgt_langs.isEmpty then
      (D.wd.filterMap (fun e => e.iso)).filter (fun s => !s.isEmpty)
    else tgt_langs
  langs.foldl (assignStep D order) ⟨[], [], [], []⟩

theorem assignedTo_cases {D : RegistryData} {order : List String} {code tr : String}
    (h : assignedTo D order code = some tr) :
    tr = "deepl" ∨ tr = "m2m" ∨ tr = "openai" := by
  have hp := List.find?_some h
  simp only [trSupports, Bool.or_eq_true, Bool.and_eq_true, beq_iff_eq] at hp
  rcases hp with (⟨h1, _⟩ | ⟨h1, _⟩) | ⟨h1, _⟩
  · exact Or.inl h1
  · exact Or.inr (Or.inl h1)
  · exact Or.inr (Or.inr h1)

theorem assign_foldl (D : RegistryData) (order : List String) (ls : List String)
    (a : Assignment) :
    ls.foldl (assignStep D order) a =
      ⟨a.deepl ++ ls.filter (fun c => assignedTo D order c == some "deepl"),
       a.m2m ++ ls.filter (fun c => assignedTo D order c == some "m2m"),
       a.openai ++ ls.filter (fun c => assignedTo D order c == some "openai"),
       a.unsupported ++ ls.filter (fun c => assignedTo D order c == none)⟩ := by
  induction ls generalizing a with
  | nil => simp
  | cons c rest ih =>
    rw [List.foldl_cons, ih]
    rcases h : assignedTo D order c with _ | tr
    · simp [assignStep, h, List.filter_cons]
    · rcases assignedTo_cases h with rfl | rfl | rfl <;>
        simp [assignStep, h, List.filter_cons, List.append_assoc]

/-! ## Detection Arbiter (src/multi_translator.js lines 94-160) -/

/-- Metadata object of an adapter response body. -/
structure DetMetadata where
  detected_source_language : Option String
  src_lang : Option String
deriving DecidableEq, Repr

/-- Parsed body of one detection call: an object with an optional `metadata`
field. -/
structure DetResult where
  metadata : Option DetMetadata
deriving DecidableEq, Repr

/-- detectWithTranslator of multi_translator.js lines 94-139: the adapter
invocation itself is abstracted by `oracle`; the extraction of the detected
language (`detectionResult?.metadata?.detected_source_language`, falling back
to `...?.metadata?.src_lang`) and the catch-all returning `null` are embedded. -/
def detectWithTranslator (oracle : String → CallOutcome DetResult)
    (detector : String) : Option String :=
  match oracle detector with
  | .threw _ => none
  | .ok r =>
    match truthyOpt (r.metadata.bind (fun m => m.detected_source_language)) with
    | some v => some v
    | none => truthyOpt (r.metadata.bind (fun m => m.src_lang))

/-- Collection loop over the settled detection results (multi_translator.js
lines 150-157): record every truthy detection, and let the first one become
the primary detected language. -/
def detLoop : List (String × Option String) → List (String × String) →
    Option String → List (String × String) × Option String
  | [], dets, primary => (dets, primary)
  | (d, r) :: rest, dets, primary =>
    match truthyOpt r with
    | some v =>
      detLoop rest (dets ++ [(d, v)])
        (match primary with
         | some p => some p
         | none => some v)
    | none => detLoop rest dets primary

/-- Detection phase outcome: `(languageDetections, primaryDetectedLang)` after
`Promise.all` over the preference list has settled and the collection loop ran. -/
def runDetections (oracle : String → CallOutcome DetResult)
    (prefs : List String) : List (String × String) × Option String :=
  detLoop (prefs.map (fun d => (d, detectWithTranslator oracle d))) [] none

theorem detLoop_spec (rs : List (String × Option String))
    (dets : List (String × String)) (primary : Option String) :
    detLoop rs dets primary =
      (dets ++ rs.filterMap (fun p => (truthyOpt p.2).map (fun v => (p.1, v))),
       match primary with
       | some p => some p
       | none => (rs.filterMap (fun p => truthyOpt p.2)).head?) := by
  induction rs generalizing dets primary with
  | nil =>
    cases primary with
    | none => simp [detLoop]
    | some p => simp [detLoop]
  | cons r rest ih =>
    obtain ⟨d, o⟩ := r
    cases ho : truthyOpt o with
    | none =>
      have hl : detLoop ((d, o) :: rest) dets primary = detLoop rest dets primary := by
        simp [detLoop, ho]
      rw [hl, ih]
      simp [List.filterMap_cons, ho]
    | some v =>
      have hl : detLoop ((d, o) :: rest) dets primary =
          detLoop rest (dets ++ [(d, v)])
            (match primary with | some p => some p | none => some v) := by
        simp [detLoop, ho]
      rw [hl, ih]
      cases primary with
      | none => simp [List.filterMap_cons, ho]
      | some p => simp [List.filterMap_cons, ho]

theorem detectWithTranslator_truthy {oracle : String → CallOutcome DetResult}
    {d v : String} (h : detectWithTranslator oracle d = some v) :
    v.isEmpty = false := by
  unfold detectWithTranslator at h
  split at h
  · exact Option.noConfusion h
  · split at h
    · rename_i w hw
      cases h
      exact (truthyOpt_eq_some hw).2
    · exact (truthyOpt_eq_some h).2

/-! ## tryTranslator and primary-result collection
(src/multi_translator.js lines 171-213 and 244-311) -/

/-- Parsed adapter HTTP response as seen by the orchestrator: status code,
string-valued top-level body fields (translations and source-text echoes), an
optional metadata object, and the `error` field of error bodies. -/
structure AdapterHttp where
  status : Nat
  body : List (String × String)
  metadata : Option DetMetadata
  errorMsg : Option String
deriving DecidableEq, Repr

/-- Outcome of awaiting one adapter invocation inside tryTranslator. -/
inductive TryOutcome where
  | threw (msg : String)
  | resp (r : AdapterHttp)
deriving Repr

/-- Value returned by tryTranslator. -/
structure TryResult where
  translations : List (String × String)
  errors : List String
  metadata : Option DetMetadata
deriving DecidableEq, Repr

/-- Per-language classification loop of multi_translator.js lines 199-207:
`result[lang] && !result[lang].includes("Error translating")` sends the
language to `translations`, anything else to `errors`. -/
def classifyLoop (body : List (String × String)) :
    List String → List (String × String) → List String →
    List (String × String) × List String
  | [], ts, es => (ts, es)
  | lang :: rest, ts, es =>
    match jsGet body lang with
    | some v =>
      if !v.isEmpty && !strContains v "Error translating" then
        classifyLoop body rest (ts ++ [(lang, v)]) es
      else
        classifyLoop body rest ts (es ++ [lang])
    | none => classifyLoop body rest ts (es ++ [lang])

/-- tryTranslator of multi_translator.js lines 171-213, with the adapter call
abstracted by its settled outcome: zero languages short-circuit, a thrown
call or a status of 400 and above fails every language of the bucket, and
otherwise each language is classified by `classifyLoop`. -/
def tryTranslator (langs : List String) (outcome : TryOutcome) : TryResult :=
  if langs.isEmpty then ⟨[], [], none⟩
  else
    match outcome with
    | .threw _ => ⟨[], langs, none⟩
    | .resp r =>
      if 400 ≤ r.status then ⟨[], langs, none⟩
      else
        let (ts, es) := classifyLoop r.body langs [] []
        ⟨ts, es, r.metadata⟩

/-- Truthy success value a language must have in `result` to be classified as
translated. -/
def okVal (body : List (String × String)) (lang : String) : Option String :=
  (jsGet body lang).bind (fun v =>
    if !v.isEmpty && !strContains v "Error translating" then some v else none)

theorem classifyLoop_spec (body : List (String × String)) (l : List String)
    (ts : List (String × String)) (es : List String) :
    classifyLoop body l ts es =
      (ts ++ l.filterMap (fun lang => (okVal body lang).map (fun v => (lang, v))),
       es ++ l.filter (fun lang => (okVal body lang).isNone)) := by
  induction l generalizing ts es with
  | nil => simp [classifyLoop]
  | cons lang rest ih =>
    simp only [classifyLoop]
    cases hv : jsGet body lang with
    | none =>
      simp [ih, okVal, hv, List.filter_cons]
    | some v =>
      cases h1 : v.isEmpty <;> cases h2 : strContains v "Error translating" <;>
        simp [h1, h2, ih, okVal, hv, List.filter_cons, List.filterMap_cons, Option.bind]

/-- Accumulation over the settled primary results (multi_translator.js
lines 260-274): successful translations are merged by `Object.assign` and the
failed languages of every bucket are concatenated into the retry list that the
fallback pass re-assigns. -/
def collectPrimary (results : List TryResult) :
    List (String × String) × List String :=
  results.foldl (fun acc r => (acc.1 ++ r.translations, acc.2 ++ r.errors)) ([], [])

theorem collectPrimary_spec (results : List TryResult) :
    collectPrimary results =
      ((results.map (fun r => r.translations)).flatten,
       (results.map (fun r => r.errors)).flatten) := by
  suffices h : ∀ acc : List (String × String) × List String,
      results.foldl (fun acc r => (acc.1 ++ r.translations, acc.2 ++ r.errors)) acc =
        (acc.1 ++ (results.map (fun r => r.translations)).flatten,
         acc.2 ++ (results.map (fun r => r.errors)).flatten) by
    simpa using h ([], [])
  induction results with
  | nil => intro acc; simp
  | cons r rest ih => intro acc; simp [ih, List.append_assoc]

/-! ## Provider adapters (src/deepl_translator.js, src/google_translator.js) -/

/-- Request body fields read by an adapter. -/
inductive StrOrList where
  | str (s : String)
  | list (l : List String)
deriving DecidableEq, Repr

/-- Parsed JSON body of an adapter (or orchestrator) request. -/
structure AdapterRequest where
  text : Option String
  src_lang : Option String
  tgt_langs : Option StrOrList
deriving DecidableEq, Repr

/-- Target-language parsing shared by the adapters: a comma-separated string
is split and trimmed, an array is used as is, anything else keeps the
adapter's default list. -/
def parseTgtOrDefault (dflt : List String) (o : Option StrOrList) : List String :=
  match o with
  | some (.str s) => (jsSplit ',' s).map jsTrim
  | some (.list l) => l
  | none => dflt

/-- Settled result of one per-language upstream fetch made by an adapter:
`ok` is `response.ok`; on success `text` is `translations[0]?.text`
(resp. `translatedText`) and `detected` the reported source language. -/
structure UpstreamFetch where
  ok : Bool
  text : Option String
  detected : Option String
deriving DecidableEq, Repr

/-- Conversion of one requested 3-letter code for DeepL
(`getISO2ForModel(lang3)?.toUpperCase() || null`, deepl_translator.js
lines 44-47). -/
def deeplCodeFor (iso2For : String → Option String) (lang3 : String) : Option String :=
  truthyOpt ((iso2For lang3).map jsToUpper)

/-- Targets the DeepL adapter actually dispatches: mapped codes filtered by
the deepl-targets support set (deepl_translator.js lines 49-53). -/
def deeplFilteredTargets (deeplTargets : List String)
    (iso2For : String → Option String) (data : AdapterRequest) : List String :=
  let targetLangs3 := parseTgtOrDefault ["eng", "esp", "zho"] data.tgt_langs
  let targetLangsDeepL := targetLangs3.filterMap (deeplCodeFor iso2For)
  let supportedTargets := deeplTargets.map jsToUpper
  targetLangsDeepL.filter (fun l => supportedTargets.contains l)

/-- Response-key map of the DeepL adapter (deepl_translator.js lines 67-73):
`deepLToIso3Map[deepLCode] = lang3` for every mappable requested code. -/
def deepLToIso3Map (iso2For : String → Option String)
    (targetLangs3 : List String) : List (String × String) :=
  targetLangs3.filterMap (fun lang3 =>
    (deeplCodeFor iso2For lang3).map (fun code => (code, lang3)))

/-- translate_with_deepl of src/deepl_translator.js (first document of the
file; lines 5-180).  The per-language upstream calls are abstracted by
`fetch`; a single target whose upstream response is not `ok` makes the
`Promise.all` of line 94 reject, and the outer catch turns the whole call
into a 500 error response.  Note that line 32 reads `supportedSources`, which
is never defined in this module: when a source language mapped to a DeepL
code, that line throws a ReferenceError which the same catch turns into the
same 500 response. -/
def translate_with_deepl (apiKey : Option String) (deeplTargets : List String)
    (iso2For : String → Option String) (fetch : String → UpstreamFetch)
    (data : AdapterRequest) : AdapterHttp :=
  match truthyOpt apiKey with
  | none => ⟨500, [], none, some "DeepL API key not configured."⟩
  | some _ =>
    match truthyOpt data.text with
    | none => ⟨400, [], none, some "Missing 'text' field in request body."⟩
    | some inputText =>
      let srcLang3 := truthyOpt data.src_lang
      match srcLang3.bind (fun s3 => (iso2For s3).map jsToUpper) with
      | some _ =>
        ⟨500, [], none, some "Internal server error processing DeepL request."⟩
      | none =>
        let targetLangs3 := parseTgtOrDefault ["eng", "esp", "zho"] data.tgt_langs
        let filtered := deeplFilteredTargets deeplTargets iso2For data
        if filtered.isEmpty then
          ⟨400, [], none, some "No valid target languages provided or mapped."⟩
        else if filtered.any (fun t => !(fetch t).ok) then
          ⟨500, [], none, some "Internal server error processing DeepL request."⟩
        else
          let translations := filtered.map (fun t => (t, fetch t))
          let keyMap := deepLToIso3Map iso2For targetLangs3
          let body :=
            [(srcLang3.getD "source", inputText)] ++
            translations.filterMap (fun p =>
              (p.2.text).map (fun tx =>
                (match truthyOpt (jsGet keyMap p.1) with
                 | some lang3 => lang3
                 | none => "unknown_target_" ++ p.1, tx)))
          let metaSrc :=
            match srcLang3 with
            | some s => some s
            | none => truthyOpt ((translations.head?).bind (fun p => p.2.detected))
          ⟨200, body, some ⟨none, metaSrc⟩, none⟩

/-- mapAndFilterLanguages of google_translator.js lines 23-37, applied with
`getGoogleTranslateCode` and the google support values as the supported set. -/
def googleMapAndFilter (gs : List (String × String)) (t3 : List String) :
    List String × List String :=
  t3.foldl (fun acc l3 =>
    match getGoogleTranslateCode gs l3 with
    | some m => if (gs.map Prod.snd).contains m then (acc.1 ++ [m], acc.2)
                else (acc.1, acc.2 ++ [l3])
    | none => (acc.1, acc.2 ++ [l3])) ([], [])

/-- Reverse mapping of one Google response code
(`googleReverseMap[lang] || getISO3FromISO2(lang)`, google_translator.js
line 210). -/
def googleKeyBack (gs : List (String × String)) (wd : List LangEntry)
    (lang : String) : Option String :=
  match truthyOpt (jsGet (googleReverseMap gs) lang) with
  | some l3 => some l3
  | none => googleGetISO3FromISO2 wd lang

/-- translate_with_google of src/google_translator.js lines 40-262.  The
credential lookup and the per-language upstream calls are abstracted; as in
the DeepL adapter, a single target whose upstream response is not `ok` throws
inside the `Promise.all` of line 146 and the outer catch returns one 500
error response for the whole call. -/
def translate_with_google (creds : CallOutcome Unit) (gs : List (String × String))
    (wd : List LangEntry) (fetch : String → UpstreamFetch)
    (data : AdapterRequest) : AdapterHttp :=
  match creds with
  | .threw m => ⟨500, [], none, some m⟩
  | .ok _ =>
    match truthyOpt data.text with
    | none => ⟨400, [], none, some "Missing 'text' field in request body."⟩
    | some inputText =>
      let srcLang3 := truthyOpt data.src_lang
      let targetLangs3 := parseTgtOrDefault [] data.tgt_langs
      if targetLangs3.isEmpty then
        ⟨400, [], none, some "No target languages provided."⟩
      else
        let mf := googleMapAndFilter gs targetLangs3
        if mf.1.isEmpty then
          ⟨400, [], none, some "No valid target languages provided or mapped."⟩
        else if mf.1.any (fun t => !(fetch t).ok) then
          ⟨500, [], none, some "Internal server error processing Google Translate request."⟩
        else
          let translations := mf.1.map (fun t => (t, fetch t))
          let entries := translations.filterMap (fun p =>
            (p.2.text).map (fun tx =>
              (match googleKeyBack gs wd p.1 with
               | some l3 => l3
               | none => "unknown_target_" ++ p.1, tx)))
          let firstDetected :=
            (translations.filterMap (fun p => truthyOpt p.2.detected)).head?
          let detectedSourceLang3 := firstDetected.map (fun f =>
            match googleKeyBack gs wd f with
            | some l3 => l3
            | none => f)
          let base := [(srcLang3.getD "source", inputText)] ++ entries
          let body :=
            match srcLang3, detectedSourceLang3 with
            | none, some d3 =>
              if (jsGet base d3).isNone && !d3.isEmpty then base ++ [(d3, inputText)]
              else base
            | _, _ => base
          ⟨200, body, some ⟨detectedSourceLang3, srcLang3⟩, none⟩

/-- Per-language failure value produced by the M2M adapter
(src/m2m_translator.js line 122). -/
def m2mErrorValue (lang2 msg : String) : String :=
  "Error translating to " ++ lang2 ++ ": " ++ msg

/-! ## Orchestrator (src/multi_translator.js, handleMultiRequest) -/

/-- Parsed JSON body of a request to the multi-translator endpoint. -/
structure MultiRequest where
  text : Option String
  tgt_langs : Option StrOrList
  src_lang : Option String
  translators : Option (List String)
  detection_preference : Option String
  detection_preferences : Option StrOrList
deriving DecidableEq, Repr

/-- Target parsing of handleMultiRequest lines 21-24: a string is split on
commas and trimmed; a missing or non-array value fails validation. -/
def parseTgtLangs (r : MultiRequest) : Option (List String) :=
  match r.tgt_langs with
  | some (.str s) => some ((jsSplit ',' s).map jsTrim)
  | some (.list l) => some l
  | none => none

/-- The four recognised detector names (handleMultiRequest line 38). -/
def validDetectors : List String := ["google", "deepl", "m2m", "openai"]

/-- Detection-preference resolution of handleMultiRequest lines 39-59,
including the backwards-compatible single `detection_preference` field and
the run-everything default. -/
def detectionPrefs (r : MultiRequest) : List String :=
  let old :=
    match r.detection_preference with
    | some s =>
      if !s.isEmpty then (if s == "auto" then validDetectors else [s])
      else validDetectors
    | none => validDetectors
  match r.detection_preferences with
  | some (.list l) => l
  | some (.str s) => if !s.isEmpty then [s] else old
  | none => old

/-- Detection preferences that are not recognised detector names
(handleMultiRequest line 62). -/
def invalidDetectors (r : MultiRequest) : List String :=
  (detectionPrefs r).filter (fun d => !validDetectors.contains d)

/-- Message of the TypeError thrown at handleMultiRequest line 225, where
`assignment.google.length` dereferences a property that the Assignment
returned by lang_utils.js does not have. -/
def googleBucketTypeError : String :=
  "TypeError: Cannot read properties of undefined (reading 'length')"

/-- Execution record of one orchestrator run: the settled response (or the
exception that escaped the handler) together with the adapter dispatch
attempts that were started, in program order. -/
structure MultiExec where
  response : JsResult AdapterHttp
  dispatches : List (String × List String)
deriving Repr

/-- handleMultiRequest of src/multi_translator.js lines 18-411.  Validation
(lines 19-73), detection (lines 86-160) and assignment (line 162) are
embedded in full; the detection adapter calls are abstracted by `oracle`.
Building the primary dispatch list (lines 216-242) starts the DeepL call for
a non-empty deepl bucket and then reads `assignment.google.length`; the
assignment object built by lang_utils.js has no `google` bucket, so that read
throws a TypeError that no surrounding handler catches, and everything from
line 225 on is unreachable. -/
def handleMultiRequest (D : RegistryData)
    (oracle : String → CallOutcome DetResult) (r : MultiRequest) : MultiExec :=
  match parseTgtLangs r with
  | none => ⟨.ok ⟨400, [], none, some "No target languages provided."⟩, []⟩
  | some tgt =>
    if tgt.isEmpty then
      ⟨.ok ⟨400, [], none, some "No target languages provided."⟩, []⟩
    else
      let prefs := detectionPrefs r
      let invalid := invalidDetectors r
      if !invalid.isEmpty then
        ⟨.ok ⟨400, [], none,
          some ("Invalid detection preferences: " ++ jsJoin ", " invalid ++
            ". Must be one of: " ++ jsJoin ", " validDetectors)⟩, []⟩
      else
        let translatorPriority :=
          (r.translators).getD ["google", "deepl", "m2m", "openai"]
        let _detection :=
          if (truthyOpt r.src_lang).isNone && !prefs.isEmpty then
            runDetections oracle prefs
          else ([], none)
        let assignment := assignTranslators D tgt translatorPriority
        let d1 : List (String × List String) :=
          if assignment.deepl.isEmpty then [] else [("DeepL", assignment.deepl)]
        match assignment.get? "google" with
        | some _ =>
          ⟨.jsError googleBucketTypeError, d1⟩
        | none =>
          ⟨.jsError googleBucketTypeError, d1⟩

/-! ## Concrete instances

The registry datasets are configuration files that are not part of the
snapshot; the following small instances are modelled from the spec (3-letter
canonical identifiers with 2-letter short identifiers, per-provider support
lists) and are used to instantiate witnesses and counterexamples. -/

/-- Modelled from the spec: a five-language wikidata-languages.json instance
(the dataset itself is missing from the snapshot). -/
def wd0 : List LangEntry :=
  [⟨some "eng", some "en"⟩, ⟨some "spa", some "es"⟩, ⟨some "deu", some "de"⟩,
   ⟨some "fra", some "fr"⟩, ⟨some "rus", some "ru"⟩]

/-- Modelled from the spec: a google-translate-support.json instance mapping
canonical identifiers to Google codes. -/
def gs0 : List (String × String) :=
  [("eng", "en"), ("spa", "es"), ("deu", "de"), ("fra", "fr"), ("rus", "ru")]

/-- Modelled from the spec: provider capability data in which DeepL supports
German, French, Spanish and English (with regional English variants) but not
Russian, while M2M supports all five languages. -/
def D0 : RegistryData :=
  ⟨wd0, ["DE", "FR", "ES", "EN-GB", "EN-US"], ["en", "es", "de", "fr", "ru"], gs0⟩

/-- Concrete detection behaviour for witnesses: the deepl candidate detects
English, every other candidate's detection call throws. -/
def oracle0 : String → CallOutcome DetResult := fun d =>
  if d == "deepl" then .ok ⟨some ⟨some "eng", none⟩⟩ else .threw "detection failed"

/-! ## Claim C9 — normalization round-trip -/

/-- C9: for every canonical identifier in a provider's mapped range,
converting to the provider's native code and back yields the identifier:
`getISO3FromISO2 (getISO2ForModel c) = c` on the 2-letter path and
`googleReverseMap (getGoogleTranslateCode c) = c` on the Google path.  Proved
of the last-wins map construction, under the hypotheses that the dataset's
provider-side codes are injective across entries (uppercased 2-letter codes,
resp. Google codes). -/
theorem C9_roundtrip (wd : List LangEntry) (gs : List (String × String))
    (h2 : ((wdPairs wd).map (fun p => jsToUpper p.2)).Nodup)
    (h3 : (gs.map Prod.snd).Nodup) :
    (∀ c i1, getISO2ForModel wd c = some i1 → getISO3FromISO2 wd i1 = some c)
    ∧ (∀ c g, getGoogleTranslateCode gs c = some g →
        jsGet (googleReverseMap gs) g = some c) := by
  constructor
  · intro c i1 h
    obtain ⟨hj, _⟩ := truthyOpt_eq_some h
    have hmem : (c, i1) ∈ wdPairs wd := jsGet_mem hj
    have hmem2 : (jsToUpper i1, c) ∈ iso2to3Map wd := by
      simp only [iso2to3Map]
      exact List.mem_map_of_mem _ hmem
    have hkeys : ((iso2to3Map wd).map Prod.fst).Nodup := by
      simp only [iso2to3Map, List.map_map]
      simpa [Function.comp] using h2
    have hlook := jsGet_of_mem_nodup hkeys hmem2
    have hc : c.isEmpty = false := (wdPairs_truthy hmem).1
    simp [getISO3FromISO2, hlook, truthyOpt_some_of hc]
  · intro c g h
    obtain ⟨hj, _⟩ := truthyOpt_eq_some h
    have hmem : (c, g) ∈ gs := jsGet_mem hj
    have hmem2 : (g, c) ∈ googleReverseMap gs := by
      simp only [googleReverseMap]
      exact List.mem_map_of_mem _ hmem
    have hkeys : ((googleReverseMap gs).map Prod.fst).Nodup := by
      simp only [googleReverseMap, List.map_map]
      simpa [Function.comp] using h3
    exact jsGet_of_mem_nodup hkeys hmem2

/-- Witness for C9 at the concrete modelled dataset. -/
theorem C9_roundtrip_witness :
    getISO3FromISO2 wd0 "es" = some "spa" ∧
    jsGet (googleReverseMap gs0) "de" = some "deu" := by
  have h := C9_roundtrip wd0 gs0 (by decide) (by decide)
  exact ⟨h.1 "spa" "es" (by decide), h.2 "deu" "de" (by decide)⟩

/-! ## Claims C3, C4 — Assignment Engine -/

theorem assignTranslators_buckets (D : RegistryData) (tgt order : List String)
    (hne : tgt ≠ []) :
    assignTranslators D tgt order =
      ⟨tgt.filter (fun c => assignedTo D order c == some "deepl"),
       tgt.filter (fun c => assignedTo D order c == some "m2m"),
       tgt.filter (fun c => assignedTo D order c == some "openai"),
       tgt.filter (fun c => assignedTo D order c == none)⟩ := by
  unfold assignTranslators
  have : tgt.isEmpty = false := by
    cases tgt with
    | nil => exact absurd rfl hne
    | cons a l => rfl
  simp only [this, Bool.false_eq_true, if_false]
  rw [assign_foldl]
  simp

/-- C3 (amended: for a non-empty requested list): assignTranslators returns a
partition of the requested identifiers — every requested identifier is in at
least one bucket, membership of each bucket is characterised by the
first-match assignment, and the buckets are pairwise disjoint with union
equal to the requested set. -/
theorem C3_assignment_partition (D : RegistryData) (tgt order : List String)
    (hne : tgt ≠ []) (c : String) :
    (c ∈ tgt ↔
      (c ∈ (assignTranslators D tgt order).deepl ∨
       c ∈ (assignTranslators D tgt order).m2m ∨
       c ∈ (assignTranslators D tgt order).openai ∨
       c ∈ (assignTranslators D tgt order).unsupported))
    ∧ (c ∈ (assignTranslators D tgt order).deepl ↔
        c ∈ tgt ∧ assignedTo D order c = some "deepl")
    ∧ (c ∈ (assignTranslators D tgt order).m2m ↔
        c ∈ tgt ∧ assignedTo D order c = some "m2m")
    ∧ (c ∈ (assignTranslators D tgt order).openai ↔
        c ∈ tgt ∧ assignedTo D order c = some "openai")
    ∧ (c ∈ (assignTranslators D tgt order).unsupported ↔
        c ∈ tgt ∧ assignedTo D order c = none)
    ∧ ¬(c ∈ (assignTranslators D tgt order).deepl ∧
        c ∈ (assignTranslators D tgt order).m2m)
    ∧ ¬(c ∈ (assignTranslators D tgt order).deepl ∧
        c ∈ (assignTranslators D tgt order).openai)
    ∧ ¬(c ∈ (assignTranslators D tgt order).deepl ∧
        c ∈ (assignTranslators D tgt order).unsupported)
    ∧ ¬(c ∈ (assignTranslators D tgt order).m2m ∧
        c ∈ (assignTranslators D tgt order).openai)
    ∧ ¬(c ∈ (assignTranslators D tgt order).m2m ∧
        c ∈ (assignTranslators D tgt order).unsupported)
    ∧ ¬(c ∈ (assignTranslators D tgt order).openai ∧
        c ∈ (assignTranslators D tgt order).unsupported) := by
  rw [assignTranslators_buckets D tgt order hne]
  rcases h : assignedTo D order c with _ | tr
  · simp [List.mem_filter, h]
  · rcases assignedTo_cases h with rfl | rfl | rfl <;> simp [List.mem_filter, h]

/-- Witness for C3 at a concrete request. -/
theorem C3_assignment_partition_witness :
    ("rus" ∈ (assignTranslators D0 ["spa", "rus"] ["deepl", "m2m", "openai"]).m2m ↔
      "rus" ∈ (["spa", "rus"] : List String) ∧
        assignedTo D0 ["deepl", "m2m", "openai"] "rus" = some "m2m") ∧
    "rus" ∈ (assignTranslators D0 ["spa", "rus"] ["deepl", "m2m", "openai"]).m2m := by
  have h := C3_assignment_partition D0 ["spa", "rus"] ["deepl", "m2m", "openai"]
    (by decide) "rus"
  exact ⟨h.2.2.1, h.2.2.1.mpr ⟨by decide, by decide⟩⟩

/-- Counterexample to C3 as frozen: for the empty requested list the engine
substitutes every registry language, so the union of the buckets is not the
(empty) requested set. -/
theorem C3_counterexample :
    ((assignTranslators D0 [] ["deepl", "m2m", "openai"]).deepl ++
     (assignTranslators D0 [] ["deepl", "m2m", "openai"]).m2m ++
     (assignTranslators D0 [] ["deepl", "m2m", "openai"]).openai ++
     (assignTranslators D0 [] ["deepl", "m2m", "openai"]).unsupported) ≠
      ([] : List String) := by decide

theorem find?_first {α : Type} {p : α → Bool} (pre post : List α) (a : α)
    (ha : p a = true) (hpre : ∀ x ∈ pre, p x = false) :
    (pre ++ a :: post).find? p = some a := by
  induction pre with
  | nil => simp [List.find?_cons, ha]
  | cons q qs ih =>
    have hq := hpre q (List.mem_cons_self q qs)
    rw [List.cons_append, List.find?_cons_of_neg _ (by simp [hq]),
      ih (fun x hx => hpre x (List.mem_cons_of_mem _ hx))]

theorem trSupports_name {D : RegistryData} {tr c : String}
    (h : trSupports D tr c = true) :
    tr = "deepl" ∨ tr = "m2m" ∨ tr = "openai" := by
  simp only [trSupports, Bool.or_eq_true, Bool.and_eq_true, beq_iff_eq] at h
  rcases h with (⟨h1, _⟩ | ⟨h1, _⟩) | ⟨h1, _⟩
  · exact Or.inl h1
  · exact Or.inr (Or.inl h1)
  · exact Or.inr (Or.inr h1)

/-- C4: for every requested identifier, the Assignment Engine scans the
priority order left to right and the first provider whose capability test
succeeds claims the identifier; the identifier lands in the unsupported
bucket exactly when no provider name in the order supports it. -/
theorem C4_first_supporting_provider (D : RegistryData) (tgt order : List String)
    (c : String) (hc : c ∈ tgt) :
    (c ∈ (assignTranslators D tgt order).unsupported ↔
      ∀ tr ∈ order, trSupports D tr c = false)
    ∧ (∀ pre tr post, order = pre ++ tr :: post → trSupports D tr c = true →
        (∀ tr2 ∈ pre, trSupports D tr2 c = false) →
        c ∈ ((assignTranslators D tgt order).get? tr).getD []) := by
  have hne : tgt ≠ [] := by
    intro h
    rw [h] at hc
    exact absurd hc (List.not_mem_nil c)
  have hb := assignTranslators_buckets D tgt order hne
  constructor
  · rw [hb]
    simp only [List.mem_filter]
    constructor
    · intro ⟨_, h⟩
      have hnone : assignedTo D order c = none := by simpa using h
      intro tr htr
      have := List.find?_eq_none.mp hnone tr htr
      simpa using this
    · intro h
      refine ⟨hc, ?_⟩
      have hnone : assignedTo D order c = none :=
        List.find?_eq_none.mpr (fun x hx => by simp [h x hx])
      simp [hnone]
  · intro pre tr post horder htr hpre
    have hfind : assignedTo D order c = some tr := by
      rw [horder]
      exact find?_first pre post tr htr hpre
    rcases trSupports_name htr with rfl | rfl | rfl <;>
      · rw [hb]
        simp [Assignment.get?, List.mem_filter, hc, hfind]

/-- Witness for C4: with the default orchestrator priority the unknown name
google supports nothing and spa goes to deepl, the first supporting provider;
an identifier supported by nobody lands in unsupported. -/
theorem C4_first_supporting_provider_witness :
    "spa" ∈ ((assignTranslators D0 ["spa"]
        ["google", "deepl", "m2m", "openai"]).get? "deepl").getD [] ∧
    "zzz" ∈ (assignTranslators D0 ["zzz"] ["deepl", "m2m", "openai"]).unsupported := by
  constructor
  · exact (C4_first_supporting_provider D0 ["spa"] ["google", "deepl", "m2m", "openai"]
      "spa" (by decide)).2 ["google"] "deepl" ["m2m", "openai"] rfl (by decide) (by decide)
  · exact (C4_first_supporting_provider D0 ["zzz"] ["deepl", "m2m", "openai"]
      "zzz" (by decide)).1.mpr (by decide)

/-! ## Claim C7 — Detection Arbiter -/

theorem runDetections_spec (oracle : String → CallOutcome DetResult)
    (prefs : List String) :
    runDetections oracle prefs =
      (prefs.filterMap (fun d =>
          (detectWithTranslator oracle d).map (fun v => (d, v))),
       (prefs.filterMap (fun d => detectWithTranslator oracle d)).head?) := by
  unfold runDetections
  rw [detLoop_spec]
  have e1 : (prefs.map (fun d => (d, detectWithTranslator oracle d))).filterMap
      (fun p => (truthyOpt p.2).map (fun v => (p.1, v))) =
      prefs.filterMap (fun d =>
        (detectWithTranslator oracle d).map (fun v => (d, v))) := by
    rw [List.filterMap_map]
    apply List.filterMap_congr
    intro d _
    simp only [Function.comp_apply]
    cases hd : detectWithTranslator oracle d with
    | none => rfl
    | some v => rw [truthyOpt_some_of (detectWithTranslator_truthy hd)]
  have e2 : (prefs.map (fun d => (d, detectWithTranslator oracle d))).filterMap
      (fun p => truthyOpt p.2) =
      prefs.filterMap (fun d => detectWithTranslator oracle d) := by
    rw [List.filterMap_map]
    apply List.filterMap_congr
    intro d _
    simp only [Function.comp_apply]
    cases hd : detectWithTranslator oracle d with
    | none => rfl
    | some v => rw [truthyOpt_some_of (detectWithTranslator_truthy hd)]
  rw [e1, e2, List.nil_append]

/-- C7: when detection runs, the primary detected language is the result of
the first candidate in the preference order whose detection produced a
result — independent of completion-arrival order, which the settled-results
model has already abstracted away; a candidate whose detection fails (throws
or yields no metadata) contributes nothing to the collected detections and
does not prevent the other candidates' results from being collected. -/
theorem C7_detection_arbitration (oracle : String → CallOutcome DetResult)
    (prefs : List String) :
    (∀ pre d post v, prefs = pre ++ d :: post →
        (∀ e ∈ pre, detectWithTranslator oracle e = none) →
        detectWithTranslator oracle d = some v →
        (runDetections oracle prefs).2 = some v)
    ∧ ((∀ d ∈ prefs, detectWithTranslator oracle d = none) →
        (runDetections oracle prefs).2 = none)
    ∧ (runDetections oracle prefs).1 =
        prefs.filterMap (fun d =>
          (detectWithTranslator oracle d).map (fun v => (d, v))) := by
  rw [runDetections_spec]
  refine ⟨?_, ?_, rfl⟩
  · intro pre d post v hsplit hpre hd
    subst hsplit
    have hpre0 : (pre.filterMap (fun d => detectWithTranslator oracle d)) = [] :=
      List.filterMap_eq_nil_iff.mpr hpre
    dsimp only
    rw [List.filterMap_append, hpre0, List.nil_append, List.filterMap_cons_some hd]
    rfl
  · intro h
    dsimp only
    rw [List.filterMap_eq_nil_iff.mpr h]
    rfl

/-- Witness for C7: with the first candidate failing and the second
detecting English, the primary result is the second candidate's detection and
only that candidate appears in the collected detections. -/
theorem C7_detection_arbitration_witness :
    (runDetections oracle0 ["google", "deepl"]).2 = some "eng" ∧
    (runDetections oracle0 ["google", "deepl"]).1 = [("deepl", "eng")] := by
  have h := C7_detection_arbitration oracle0 ["google", "deepl"]
  refine ⟨h.1 ["google"] "deepl" [] "eng" rfl (by decide) (by decide), ?_⟩
  rw [h.2.2]
  decide

/-! ## Claim C10 — success classification by the error marker -/

theorem okVal_eq_some_iff {body : List (String × String)} {lang v : String} :
    okVal body lang = some v ↔
      (jsGet body lang = some v ∧ v.isEmpty = false ∧
        strContains v "Error translating" = false) := by
  unfold okVal
  cases h : jsGet body lang with
  | none => simp [h]
  | some w =>
    simp only [h, Option.some_bind, Option.some.injEq]
    constructor
    · intro h3
      by_cases hc : (!w.isEmpty && !strContains w "Error translating") = true
      · rw [if_pos hc] at h3
        obtain rfl : w = v := by simpa using h3
        obtain ⟨hc1, hc2⟩ :
            w.isEmpty = false ∧ strContains w "Error translating" = false := by
          simpa using hc
        exact ⟨rfl, hc1, hc2⟩
      · rw [if_neg hc] at h3
        exact absurd h3 (by simp)
    · rintro ⟨hw, h1, h2⟩
      obtain rfl : w = v := by simpa using hw
      rw [if_pos (by simp [h1, h2])]

/-- C10: the orchestrator classifies a target language as successfully
translated by an adapter call exactly when the adapter's parsed response has
a truthy value for that language that does not contain the substring
"Error translating"; every other requested language of the call joins the
per-call error list, those error lists are concatenated into the retry set
handed to the fallback assignment, and an M2M per-language error string is
classified as a failure by this test. -/
theorem C10_error_marker_classification (langs : List String) (r : AdapterHttp)
    (hok : r.status < 400) (lang : String) (hlang : lang ∈ langs) :
    ((lang ∈ (tryTranslator langs (.resp r)).translations.map Prod.fst) ↔
      ∃ v, jsGet r.body lang = some v ∧ v.isEmpty = false ∧
        strContains v "Error translating" = false)
    ∧ ((lang ∈ (tryTranslator langs (.resp r)).errors) ↔
      ¬∃ v, jsGet r.body lang = some v ∧ v.isEmpty = false ∧
        strContains v "Error translating" = false)
    ∧ (∀ results : List TryResult,
        (collectPrimary results).2 = (results.map (fun t => t.errors)).flatten)
    ∧ (tryTranslator ["spa"]
        (.resp ⟨200, [("spa", m2mErrorValue "es" "boom")], none, none⟩)).errors
        = ["spa"] := by
  have hne : langs.isEmpty = false := by
    cases langs with
    | nil => exact absurd hlang (List.not_mem_nil lang)
    | cons a l => rfl
  have ht : tryTranslator langs (.resp r) =
      ⟨langs.filterMap (fun l => (okVal r.body l).map (fun v => (l, v))),
       langs.filter (fun l => (okVal r.body l).isNone), r.metadata⟩ := by
    unfold tryTranslator
    simp [hne, Nat.not_le.mpr hok, classifyLoop_spec]
  refine ⟨?_, ?_, ?_, by decide⟩
  · rw [ht]
    constructor
    · intro hmem
      obtain ⟨p, hp, hfst⟩ := List.mem_map.mp hmem
      obtain ⟨a, ha, hfa⟩ := List.mem_filterMap.mp hp
      cases hok2 : okVal r.body a with
      | none => rw [hok2] at hfa; exact absurd hfa (by simp)
      | some v =>
        rw [hok2] at hfa
        have hpv : p = (a, v) := by
          simpa using hfa.symm
        have hav : a = lang := by rw [hpv] at hfst; exact hfst
        rw [hav] at hok2
        exact ⟨v, okVal_eq_some_iff.mp hok2⟩
    · rintro ⟨v, hv⟩
      have hsome : okVal r.body lang = some v := okVal_eq_some_iff.mpr hv
      exact List.mem_map.mpr ⟨(lang, v),
        List.mem_filterMap.mpr ⟨lang, hlang, by rw [hsome]; rfl⟩, rfl⟩
  · rw [ht]
    constructor
    · intro hmem
      have hnone := (List.mem_filter.mp hmem).2
      rintro ⟨v, hv⟩
      rw [okVal_eq_some_iff.mpr hv] at hnone
      simp at hnone
    · intro h
      refine List.mem_filter.mpr ⟨hlang, ?_⟩
      cases hok2 : okVal r.body lang with
      | none => rfl
      | some v => exact absurd ⟨v, okVal_eq_some_iff.mp hok2⟩ h
  · intro results
    rw [collectPrimary_spec]

/-- Witness for C10 at a concrete adapter response mixing a genuine
translation with an M2M error string. -/
theorem C10_error_marker_classification_witness :
    ("deu" ∈ (tryTranslator ["deu", "spa"]
      (.resp ⟨200, [("deu", "Hallo"), ("spa", m2mErrorValue "es" "x")], none,
        none⟩)).translations.map Prod.fst) ∧
    ("spa" ∈ (tryTranslator ["deu", "spa"]
      (.resp ⟨200, [("deu", "Hallo"), ("spa", m2mErrorValue "es" "x")], none,
        none⟩)).errors) := by
  have h1 := C10_error_marker_classification ["deu", "spa"]
    ⟨200, [("deu", "Hallo"), ("spa", m2mErrorValue "es" "x")], none, none⟩
    (by decide) "deu" (by decide)
  have h2 := C10_error_marker_classification ["deu", "spa"]
    ⟨200, [("deu", "Hallo"), ("spa", m2mErrorValue "es" "x")], none, none⟩
    (by decide) "spa" (by decide)
  refine ⟨h1.1.mpr ⟨"Hallo", by decide, by decide, by decide⟩, ?_⟩
  refine h2.2.1.mpr ?_
  rintro ⟨v, hv, -, hcont⟩
  have hv0 : jsGet [("deu", "Hallo"), ("spa", m2mErrorValue "es" "x")] "spa" =
      some (m2mErrorValue "es" "x") := by decide
  rw [hv0] at hv
  have : m2mErrorValue "es" "x" = v := by simpa using hv
  rw [← this] at hcont
  exact absurd hcont (by decide)

/-! ## Claim C6 — per-language failure isolation in the adapters -/

/-- Upstream behaviour for the C6 counterexample: the call for the DeepL code
DE fails with an HTTP error while the sibling call for FR succeeds. -/
def fetchC6 : String → UpstreamFetch := fun t =>
  if t == "DE" then ⟨false, none, none⟩ else ⟨true, some "Salut", some "EN"⟩

/-- Counterexample to C6 as frozen: a DeepL adapter call for German and
French in which only the German upstream call fails returns a single 500
error response for the whole call — the successful French sibling result is
discarded instead of being returned next to a per-language failure record. -/
theorem C6_counterexample :
    translate_with_deepl (some "key") ["DE", "FR", "ES", "EN-GB", "EN-US"]
        (fun c => getISO2ForModel wd0 c) fetchC6
        ⟨some "Hello", none, some (.list ["deu", "fra"])⟩ =
      ⟨500, [], none, some "Internal server error processing DeepL request."⟩
    ∧ (fetchC6 "FR").ok = true := by
  constructor
  · decide
  · decide

/-- C6 (amended): in the DeepL and the Google adapter, an upstream HTTP
error for any single dispatched target language rejects the per-language
`Promise.all`, and the adapter returns one 500 error response for the whole
call, with no per-language results at all. -/
theorem C6_upstream_error_aborts_call :
    (∀ (apiKey : Option String) (dT : List String)
        (iso2For : String → Option String) (fetch : String → UpstreamFetch)
        (data : AdapterRequest),
        truthyOpt apiKey ≠ none →
        truthyOpt data.text ≠ none →
        (deeplFilteredTargets dT iso2For data).any (fun t => !(fetch t).ok) = true →
        translate_with_deepl apiKey dT iso2For fetch data =
          ⟨500, [], none, some "Internal server error processing DeepL request."⟩)
    ∧ (∀ (gs : List (String × String)) (wd : List LangEntry)
        (fetch : String → UpstreamFetch) (data : AdapterRequest),
        truthyOpt data.text ≠ none →
        (googleMapAndFilter gs (parseTgtOrDefault [] data.tgt_langs)).1.any
          (fun t => !(fetch t).ok) = true →
        translate_with_google (.ok ()) gs wd fetch data =
          ⟨500, [], none,
            some "Internal server error processing Google Translate request."⟩) := by
  constructor
  · intro apiKey dT iso2For fetch data hkey htext hany
    obtain ⟨k, hk⟩ := Option.ne_none_iff_exists'.mp hkey
    obtain ⟨txt, htxt⟩ := Option.ne_none_iff_exists'.mp htext
    have hfe : (deeplFilteredTargets dT iso2For data).isEmpty = false := by
      cases hf : deeplFilteredTargets dT iso2For data with
      | nil => rw [hf] at hany; simp at hany
      | cons a l => rfl
    unfold translate_with_deepl
    rw [hk, htxt]
    cases hsrc : (truthyOpt data.src_lang).bind
        (fun s3 => (iso2For s3).map jsToUpper) with
    | some u => simp [hsrc]
    | none => simp [hsrc, hfe, hany]
  · intro gs wd fetch data htext hany
    obtain ⟨txt, htxt⟩ := Option.ne_none_iff_exists'.mp htext
    have htne : (parseTgtOrDefault [] data.tgt_langs).isEmpty = false := by
      cases hf : parseTgtOrDefault [] data.tgt_langs with
      | nil => rw [hf] at hany; simp [googleMapAndFilter] at hany
      | cons a l => rfl
    have hm1 : (googleMapAndFilter gs (parseTgtOrDefault [] data.tgt_langs)).1.isEmpty
        = false := by
      cases hf : (googleMapAndFilter gs (parseTgtOrDefault [] data.tgt_langs)).1 with
      | nil => rw [hf] at hany; simp at hany
      | cons a l => rfl
    unfold translate_with_google
    rw [htxt]
    simp [htne, hm1, hany]

/-- Witness for C6 at concrete adapter calls failing on one of two targets. -/
theorem C6_upstream_error_aborts_call_witness :
    translate_with_deepl (some "key") ["DE", "FR"] (fun c => getISO2ForModel wd0 c)
        fetchC6 ⟨some "Hi", none, some (.list ["deu", "fra"])⟩ =
      ⟨500, [], none, some "Internal server error processing DeepL request."⟩
    ∧ translate_with_google (.ok ()) gs0 wd0
        (fun t => if t == "de" then ⟨false, none, none⟩ else ⟨true, some "ok", none⟩)
        ⟨some "Hi", none, some (.list ["deu", "fra"])⟩ =
      ⟨500, [], none,
        some "Internal server error processing Google Translate request."⟩ := by
  have h := C6_upstream_error_aborts_call
  exact ⟨h.1 (some "key") ["DE", "FR"] (fun c => getISO2ForModel wd0 c) fetchC6
      ⟨some "Hi", none, some (.list ["deu", "fra"])⟩ (by decide) (by decide) (by decide),
    h.2 gs0 wd0
      (fun t => if t == "de" then ⟨false, none, none⟩ else ⟨true, some "ok", none⟩)
      ⟨some "Hi", none, some (.list ["deu", "fra"])⟩ (by decide) (by decide)⟩

/-! ## Claims C1, C2, C5, C8 — orchestrator lifecycle -/

theorem get?_google_eq_none (a : Assignment) : a.get? "google" = none := rfl

/-- C2 evidence (the code is the bug): a request that passes input validation
never yields a response at all — for the valid request
`{text: "Hello", tgt_langs: ["spa"]}`, under every registry dataset and every
detection behaviour, handleMultiRequest throws the TypeError of reading
`assignment.google.length`, because the assignment object built by
lang_utils.js has no google bucket. -/
theorem C2_valid_request_crashes (D : RegistryData)
    (oracle : String → CallOutcome DetResult) :
    (handleMultiRequest D oracle
      ⟨some "Hello", some (.list ["spa"]), none, none, none, none⟩).response =
      .jsError googleBucketTypeError := rfl

/-- C1 evidence (the code is the bug): for the valid, registry-known request
`{text: "Hello", tgt_langs: ["spa", "deu"]}` no TranslationResponse is ever
produced — the handler throws the google-bucket TypeError for every registry
dataset and every detection behaviour, so no response accounts for the
requested targets. -/
theorem C1_no_final_response (D : RegistryData)
    (oracle : String → CallOutcome DetResult) :
    (handleMultiRequest D oracle
      ⟨some "Hello", some (.list ["spa", "deu"]), none, none, none, none⟩).response =
      .jsError googleBucketTypeError := rfl

/-- C8 evidence (the code is the bug): for the request
`{text: "Hello", tgt_langs: ["rus"]}` against the modelled registry, rus is
assigned to the m2m bucket, yet the execution records zero dispatch attempts
for it — the handler throws the google-bucket TypeError after starting only
deepl-bucket calls (of which there are none here), so the claimed
"exactly one primary adapter call" never happens and no fallback pass can
ever run. -/
theorem C8_no_dispatch_for_assigned_language
    (oracle : String → CallOutcome DetResult) :
    (handleMultiRequest D0 oracle
      ⟨some "Hello", some (.list ["rus"]), none, none, none, none⟩).dispatches = []
    ∧ (handleMultiRequest D0 oracle
      ⟨some "Hello", some (.list ["rus"]), none, none, none, none⟩).response =
      .jsError googleBucketTypeError
    ∧ "rus" ∈ (assignTranslators D0 ["rus"] ["google", "deepl", "m2m", "openai"]).m2m := by
  refine ⟨?_, rfl, by decide⟩
  show (if (assignTranslators D0 ["rus"] ["google", "deepl", "m2m", "openai"]).deepl.isEmpty
      then ([] : List (String × List String))
      else [("DeepL", (assignTranslators D0 ["rus"]
        ["google", "deepl", "m2m", "openai"]).deepl)]) = []
  decide

/-- C5 (amended): the orchestrator returns a 400 rejection exactly when the
requested target set is absent or empty after parsing — with the reason
"No target languages provided." and before any dispatch — or when the
detection-preference list contains an unrecognised detector name; input text
is never validated.  Any request passing both checks ends in the
google-bucket TypeError, never in a further rejection. -/
theorem C5_rejection_characterization (D : RegistryData)
    (oracle : String → CallOutcome DetResult) (r : MultiRequest) :
    ((∃ resp, (handleMultiRequest D oracle r).response = .ok resp ∧
        resp.status = 400) ↔
      ((parseTgtLangs r).getD [] = [] ∨ invalidDetectors r ≠ []))
    ∧ ((parseTgtLangs r).getD [] = [] →
        (handleMultiRequest D oracle r).response =
          .ok ⟨400, [], none, some "No target languages provided."⟩ ∧
        (handleMultiRequest D oracle r).dispatches = [])
    ∧ (invalidDetectors r ≠ [] →
        (handleMultiRequest D oracle r).dispatches = [])
    ∧ ((handleMultiRequest D oracle r).response =
        .ok ⟨400, [], none, some "No target languages provided."⟩ ∨
      (handleMultiRequest D oracle r).response =
        .ok ⟨400, [], none,
          some ("Invalid detection preferences: " ++
            jsJoin ", " (invalidDetectors r) ++ ". Must be one of: " ++
            jsJoin ", " validDetectors)⟩ ∨
      (handleMultiRequest D oracle r).response = .jsError googleBucketTypeError) := by
  unfold handleMultiRequest
  cases hp : parseTgtLangs r with
  | none =>
    refine ⟨?_, ?_, ?_, ?_⟩
    · simp
    · intro _; exact ⟨rfl, rfl⟩
    · intro _; rfl
    · exact Or.inl rfl
  | some tgt =>
    cases tgt with
    | nil =>
      refine ⟨?_, ?_, ?_, ?_⟩
      · simp
      · intro _; exact ⟨rfl, rfl⟩
      · intro _; rfl
      · exact Or.inl rfl
    | cons a l =>
      simp only [List.isEmpty_cons, Bool.false_eq_true, if_false]
      cases hinv : (invalidDetectors r).isEmpty with
      | true =>
        have hinv0 : invalidDetectors r = [] := by
          cases hi : invalidDetectors r with
          | nil => rfl
          | cons x xs => rw [hi] at hinv; exact absurd hinv (by simp)
        simp only [hinv0, List.isEmpty_nil, Bool.not_true, Bool.false_eq_true, if_false]
        refine ⟨?_, ?_, ?_, ?_⟩
        · constructor
          · rintro ⟨resp, hresp, -⟩
            rw [get?_google_eq_none] at hresp
            exact absurd hresp (by simp)
          · rintro (h0 | h0)
            · simp at h0
            · exact absurd rfl h0
        · intro h0
          simp at h0
        · intro h0; exact absurd rfl h0
        · refine Or.inr (Or.inr ?_)
          rw [get?_google_eq_none]
      | false =>
        simp only [hinv, Bool.not_false, if_true]
        have hinvne : invalidDetectors r ≠ [] := by
          intro h0; rw [h0] at hinv; exact absurd hinv (by simp)
        refine ⟨?_, ?_, ?_, ?_⟩
        · constructor
          · intro _; exact Or.inr hinvne
          · intro _; exact ⟨_, rfl, rfl⟩
        · intro h0
          simp at h0
        · intro _; trivial
        · exact Or.inr (Or.inl trivial)

/-- Witness for C5: a request with no targets is rejected with the exact
reason string and no dispatch, and a request with an unrecognised detection
preference is rejected with no dispatch. -/
theorem C5_rejection_characterization_witness :
    (handleMultiRequest D0 oracle0
      ⟨some "Hello", none, none, none, none, none⟩).response =
      .ok ⟨400, [], none, some "No target languages provided."⟩
    ∧ (handleMultiRequest D0 oracle0
      ⟨some "Hello", none, none, none, none, none⟩).dispatches = []
    ∧ (handleMultiRequest D0 oracle0
      ⟨some "Hello", some (.list ["spa"]), none, none, none,
        some (.list ["bogus"])⟩).dispatches = [] := by
  have h1 := C5_rejection_characterization D0 oracle0
    ⟨some "Hello", none, none, none, none, none⟩
  have h2 := C5_rejection_characterization D0 oracle0
    ⟨some "Hello", some (.list ["spa"]), none, none, none, some (.list ["bogus"])⟩
  obtain ⟨ha, hb⟩ := h1.2.1 (by decide)
  exact ⟨ha, hb, h2.2.2.1 (by decide)⟩

/-- Counterexample to C5 as frozen: a request with empty text but valid
targets is not rejected (execution proceeds past validation and dies on the
google-bucket TypeError instead of returning the claimed 400), while a
request with perfectly valid text and targets is terminally rejected for an
invalid detection preference — so terminal rejection neither follows from
empty text nor happens only on empty text or empty targets. -/
theorem C5_counterexample :
    (handleMultiRequest D0 oracle0
      ⟨some "", some (.list ["spa"]), none, none, none, none⟩).response =
      .jsError googleBucketTypeError
    ∧ (handleMultiRequest D0 oracle0
      ⟨some "Hello", some (.list ["spa"]), none, none, none,
        some (.list ["bogus"])⟩).response =
      .ok ⟨400, [], none,
        some "Invalid detection preferences: bogus. Must be one of: google, deepl, m2m, openai"⟩ := by
  exact ⟨rfl, rfl⟩

end Ananas
